import Mathlib

/-!
Verification of the spamscope attachment-analysis core.

Shallow embedding of the Python modules
  src/modules/attachments/attachments.py  (class Attachments)
  src/modules/attachments/utils.py        (check_archive, extension)
  src/modules/sample_parser.py            (class SampleParser)
  src/modules/abstracts.py                (AbstractUrlsHandlerBolt._load_whitelist)

Attachment records are Python dicts; we model them as structures whose
optional fields stand for possibly-missing dict keys.  Python list.remove
removes the first element equal to the argument; we model it as eraseFirst.
Filesystem and external-tool effects (tempfile, patoolib) are modelled with
boolean oracles for the outcome of each external operation, and the scratch
state that the code creates and removes is tracked explicitly.
-/

/-- One nested file of an archive attachment, as built by
Attachments._addmetadata: a dict with keys filename, Content-Type, payload
(and fingerprints).  An absent key is modelled as none. -/
structure AttachFile where
  afilename : String
  acontentType : Option String
  apayload : Option String
  deriving DecidableEq, Repr

/-- One attachment record of the Attachments collection: a dict whose keys
may be absent.  contentType models the dict key Content-Type, files models
the key files (absent key and empty list are identified, which is how the
code reads it via i.get with default), is_filtered models
i.get with default False. -/
structure Attachment where
  filename : String
  contentType : Option String
  payload : Option String
  md5 : Option String
  sha1 : Option String
  sha256 : Option String
  sha512 : Option String
  is_filtered : Bool
  files : List AttachFile
  deriving DecidableEq, Repr

/-- Python str.lower on one character, for the ASCII strings this code
compares (content types, hash strings, file extensions, domains). -/
def lowerChar (c : Char) : Char :=
  if 'A' ≤ c ∧ c ≤ 'Z' then Char.ofNat (c.toNat + 32) else c

/-- Python str.lower (ASCII range). -/
def lowerStr (s : String) : String :=
  String.mk (s.data.map lowerChar)

/-- Python list.remove(a): remove the first element equal to a (our uses
always have the element present, where Python would otherwise raise). -/
def eraseFirst {α : Type} [DecidableEq α] (l : List α) (a : α) : List α :=
  match l with
  | [] => []
  | x :: xs => if x = a then xs else x :: eraseFirst xs a

/-- Lookup i[key] for the fingerprint keys used by pophash and filter;
none models a missing key (KeyError in Python). -/
def hashField (i : Attachment) : String → Option String
  | "md5" => i.md5
  | "sha1" => i.sha1
  | "sha256" => i.sha256
  | "sha512" => i.sha512
  | _ => none

/-- The len_hashes table of Attachments.pophash: hash-string length to
fingerprint key; none models the KeyError branch (HashError). -/
def len_hashes (n : Nat) : Option String :=
  if n = 32 then some "md5"
  else if n = 40 then some "sha1"
  else if n = 64 then some "sha256"
  else if n = 128 then some "sha512"
  else none

/-- First phase of Attachments.pophash: the loop over the collection.  The
length lookup happens inside the loop body, so an empty collection never
reaches it; on a bad length the loop raises (error) before any removal.
On success it returns the to_remove list. -/
def pophashScan (h : String) : List Attachment → Except Unit (List Attachment)
  | [] => .ok []
  | i :: rest =>
    match len_hashes h.length with
    | none => .error ()
    | some key =>
      match pophashScan h rest with
      | .error e => .error e
      | .ok rm => .ok (if hashField i key = some h then i :: rm else rm)

/-- Attachments.pophash: collect matching records, then remove each with
list.remove.  An error models the HashError raise (the collection is not
yet mutated at that point). -/
def pophash (l : List Attachment) (h : String) : Except Unit (List Attachment) :=
  match pophashScan h l with
  | .error e => .error e
  | .ok rm => .ok (rm.foldl eraseFirst l)

/-- Inner-member scan of Attachments.popcontenttype: collect and prune the
members of one record whose Content-Type (lowercased) equals the target;
none models the KeyError raised when a member lacks Content-Type, in which
case the record is left unpruned. -/
def scanMembers (ctl : String) : List AttachFile → Option (List AttachFile)
  | [] => some []
  | j :: js =>
    match j.acontentType with
    | none => none
    | some c =>
      match scanMembers ctl js with
      | none => none
      | some fs => some (if lowerStr c == ctl then fs else j :: fs)

/-- Main loop of Attachments.popcontenttype.  Records marked is_filtered are
skipped whole.  A record whose Content-Type matches is collected for later
removal (and its members are not examined).  Otherwise its members are
pruned in place.  A missing Content-Type raises ContentTypeError: the error
case carries the collection as the loop leaves it (already-processed prefix
mutated, rest untouched), since Python mutates in place. -/
def popLoop (ctl : String) : List Attachment →
    Except (List Attachment) (List Attachment × List Attachment)
  | [] => .ok ([], [])
  | i :: rest =>
    if i.is_filtered then
      match popLoop ctl rest with
      | .error l => .error (i :: l)
      | .ok (l, rm) => .ok (i :: l, rm)
    else
      match i.contentType with
      | none => .error (i :: rest)
      | some c =>
        if lowerStr c == ctl then
          match popLoop ctl rest with
          | .error l => .error (i :: l)
          | .ok (l, rm) => .ok (i :: l, i :: rm)
        else
          match scanMembers ctl i.files with
          | none => .error (i :: rest)
          | some fs =>
            match popLoop ctl rest with
            | .error l => .error ({ i with files := fs } :: l)
            | .ok (l, rm) => .ok ({ i with files := fs } :: l, rm)

/-- Attachments.popcontenttype: lowercase the argument, run the loop, then
remove the collected records with list.remove.  The error case is the
ContentTypeError raise, carrying the in-place-mutated collection. -/
def popcontenttype (l : List Attachment) (content_type : String) :
    Except (List Attachment) (List Attachment) :=
  match popLoop (lowerStr content_type) l with
  | .error pl => .error pl
  | .ok (l2, rm) => .ok (rm.foldl eraseFirst l2)

/-- Attachments.filter: walk the collection; every record gets its hash
added to the analyzed set (modelled as the list of hashes in insertion
order) and its is_filtered flag assigned; matching records also lose their
payload.  A record lacking the hash key raises KeyError: the error case
carries the collection as mutated so far. -/
def filter (check_list : List String) (hash_type : String) :
    List Attachment → Except (List Attachment) (List Attachment × List String)
  | [] => .ok ([], [])
  | i :: rest =>
    match hashField i hash_type with
    | none => .error (i :: rest)
    | some h =>
      let upd : Attachment :=
        if h ∈ check_list then { i with payload := none, is_filtered := true }
        else { i with is_filtered := false }
      match filter check_list hash_type rest with
      | .error l => .error (upd :: l)
      | .ok (l, s) => .ok (upd :: l, h :: s)

/-- What Attachments.filter does to a single record: the record keyed by
hash_type is marked filtered and loses its payload when the hash is in the
check list, and otherwise has is_filtered assigned false with the payload
field left exactly as it was (a previously dropped payload stays dropped). -/
def markRecord (check_list : List String) (hash_type : String) (i : Attachment) : Attachment :=
  match hashField i hash_type with
  | none => i
  | some h =>
    if h ∈ check_list then { i with payload := none, is_filtered := true }
    else { i with is_filtered := false }

/-- Predicate: the Content-Type of record i (lowercased) equals the
(lowercased) target. -/
def ctMatches (ctl : String) (i : Attachment) : Bool :=
  match i.contentType with
  | some c => lowerStr c == ctl
  | none => false

/-- Predicate: the Content-Type of member j (lowercased) equals the target. -/
def fileMatches (ctl : String) (j : AttachFile) : Bool :=
  match j.acontentType with
  | some c => lowerStr c == ctl
  | none => false

/-- Effect of the popcontenttype loop on one surviving record: a
non-filtered record with a non-matching Content-Type has its matching
members pruned; filtered and matching records pass through unchanged. -/
def pruneRecord (ctl : String) (i : Attachment) : Attachment :=
  if !i.is_filtered && !(ctMatches ctl i) then
    { i with files := i.files.filter (fun j => !(fileMatches ctl j)) }
  else i

/-- Records that popcontenttype removes at top level: not filtered, and
Content-Type matching. -/
def removePredicate (ctl : String) (i : Attachment) : Bool :=
  !i.is_filtered && ctMatches ctl i

/-- Records that make popcontenttype raise ContentTypeError: not filtered,
and either the record itself lacks a Content-Type, or it does not match
(so its members are examined) and some member lacks a Content-Type. -/
def badRecord (ctl : String) (i : Attachment) : Bool :=
  !i.is_filtered &&
    (i.contentType.isNone ||
      (!(ctMatches ctl i) && i.files.any (fun j => j.acontentType.isNone)))

/-- Result extractor over both exits of popcontenttype and filter: the
collection as it stands when control leaves the method, normally or by the
exception (Python mutates the list in place, so the caller sees it). -/
def exitList : Except (List Attachment) (List Attachment) → List Attachment
  | .error l => l
  | .ok l => l

/-- Whether the Except result is a normal return. -/
def isOkE : Except (List Attachment) (List Attachment) → Bool
  | .ok _ => true
  | .error _ => false

/- Concrete records used by witnesses and counterexamples. -/

/-- Concrete record with sha1 a and a live payload. -/
def cA : Attachment :=
  { filename := "one.bin", contentType := some "text/plain", payload := some "p1",
    md5 := none, sha1 := some "a", sha256 := none, sha512 := none,
    is_filtered := false, files := [] }

/-- Concrete record with sha1 b and a live payload. -/
def cB : Attachment :=
  { filename := "two.bin", contentType := some "text/plain", payload := some "p2",
    md5 := none, sha1 := some "b", sha256 := none, sha512 := none,
    is_filtered := false, files := [] }

/-- Concrete record with sha1 c and a live payload. -/
def cC : Attachment :=
  { filename := "three.bin", contentType := some "text/plain", payload := some "p3",
    md5 := none, sha1 := some "c", sha256 := none, sha512 := none,
    is_filtered := false, files := [] }

/-- Concrete record already marked is_filtered, with payload dropped and
Content-Type text/html. -/
def fHtml : Attachment :=
  { filename := "old.html", contentType := some "text/html", payload := none,
    md5 := none, sha1 := some "s", sha256 := none, sha512 := none,
    is_filtered := true, files := [] }

/-- Concrete previously-filtered record with sha1 b and no payload. -/
def pF : Attachment :=
  { filename := "prev.bin", contentType := some "text/plain", payload := none,
    md5 := none, sha1 := some "b", sha256 := none, sha512 := none,
    is_filtered := true, files := [] }

/-- Concrete plain html record. -/
def recHtml : Attachment :=
  { filename := "page.html", contentType := some "text/html", payload := some "h",
    md5 := none, sha1 := some "h1", sha256 := none, sha512 := none,
    is_filtered := false, files := [] }

/-- Concrete archive record with one html member and one pdf member. -/
def recZip : Attachment :=
  { filename := "arc.zip", contentType := some "application/zip", payload := some "z",
    md5 := none, sha1 := some "h2", sha256 := none, sha512 := none,
    is_filtered := false,
    files := [{ afilename := "in.html", acontentType := some "text/html", apayload := some "x" },
              { afilename := "in.pdf", acontentType := some "application/pdf", apayload := some "y" }] }

/- utils.extension and the os.path.splitext it calls (posix rules). -/

/-- Python str.rfind for a single character: index of the last occurrence,
minus one if absent. -/
def rfind (c : Char) : List Char → Int
  | [] => -1
  | x :: xs =>
    let r := rfind c xs
    if r ≥ 0 then r + 1
    else if x = c then 0 else -1

/-- CPython genericpath._splitext for posix paths: split at the last dot,
provided it lies after the last path separator and the basename has a
character other than a dot before it (leading dots of the basename do not
start an extension). -/
def splitextChars (p : List Char) : List Char × List Char :=
  let sepIndex := rfind '/' p
  let dotIndex := rfind '.' p
  if dotIndex > sepIndex then
    let basenameStart := (p.drop (sepIndex + 1).toNat).take (dotIndex - sepIndex - 1).toNat
    if basenameStart.any (fun ch => ch ≠ '.') then
      (p.take dotIndex.toNat, p.drop dotIndex.toNat)
    else (p, [])
  else (p, [])

/-- os.path.splitext on strings: always a pair (root, ext). -/
def splitext (s : String) : String × String :=
  let pr := splitextChars s.data
  (String.mk pr.1, String.mk pr.2)

/-- utils.extension, translated exactly: ext is the splitext result tuple
(modelled as the two-element list of its components, so the length test of
the source stays visible); the source returns ext[-1].lower() when the
tuple has more than one element and None otherwise.  Since splitext always
returns a pair, the None branch is dead code. -/
def extension (filename : String) : Option String :=
  let pr := splitext filename
  let ext : List String := [pr.1, pr.2]
  if ext.length > 1 then some (lowerStr (ext.getLastD "")) else none

/- check_archive (utils.py) and the scratch-resource bookkeeping of
Attachments._addmetadata and SampleParser._create_sample_result.  The
external operations are replaced by boolean oracles: writeOk is the
tempfile-write succeeding, testOk the archive-tool test succeeding,
extractOk the archive-tool extract succeeding. -/

/-- Scratch filesystem state: whether the per-sample scratch file and the
extraction scratch directory still exist. -/
structure Scratch where
  sampleFile : Bool
  tempDir : Bool
  deriving DecidableEq, Repr

/-- utils.check_archive: write the data to a scratch file (any failure
there raises TempIOError); run the archive test, any failure of which is
swallowed and just means is_archive false; with write_sample the scratch
file is handed back to the caller (still existing), otherwise it is
removed.  Result: error name, or (is_archive, scratch file still exists). -/
def check_archive (writeOk testOk write_sample : Bool) : Except String (Bool × Bool) :=
  if !writeOk then .error "TempIOError"
  else
    let is_archive := true
    let is_archive := if testOk then is_archive else false
    if write_sample then .ok (is_archive, true)
    else .ok (is_archive, false)

/-- Scratch-resource trace of the expansion part of
Attachments._addmetadata for one record, from after the scratch file was
written (write succeeded): if the test says archive, mkdtemp creates the
scratch directory and patoolib.extract_archive runs with no surrounding
try, so on extract failure the exception propagates with both scratch
file and directory still present; on the success and not-an-archive paths
both are removed before returning.  Result: (raised error, final state). -/
def addmetadataScratch (testOk extractOk : Bool) : Option String × Scratch :=
  let flag := testOk
  if flag then
    if extractOk then (none, { sampleFile := false, tempDir := false })
    else (some "ExtractError", { sampleFile := true, tempDir := true })
  else (none, { sampleFile := false, tempDir := false })

/-- Scratch-resource trace of SampleParser._create_sample_result: same
shape as addmetadataScratch (the existence-guarded removals at the end are
skipped entirely when extract_archive raises). -/
def create_sample_result_scratch (testOk extractOk : Bool) : Option String × Scratch :=
  let is_archive := testOk
  if is_archive then
    if extractOk then (none, { sampleFile := false, tempDir := false })
    else (some "ExtractError", { sampleFile := true, tempDir := true })
  else (none, { sampleFile := false, tempDir := false })

/- SampleParser.parse_sample after classification: _remove_content_type and
the guard that skips fingerprinting and enrichment for a dropped sample. -/

/-- Member of a SampleParser result (one file of an archive), after
_add_content_type ran: every member has a Content-Type.  ffingerprinted
records whether _add_fingerprints reached it. -/
structure SPFile where
  fname : String
  fcontentType : String
  ffingerprinted : Bool
  deriving DecidableEq, Repr

/-- SampleParser._result after _create_sample_result and _add_content_type:
root Content-Type is present; rfingerprinted records whether
_add_fingerprints ran on the root. -/
structure SPResult where
  rfilename : String
  rcontentType : String
  ris_archive : Bool
  rfiles : List SPFile
  rfingerprinted : Bool
  deriving DecidableEq, Repr

/-- SampleParser._remove_content_type: with an empty blacklist do nothing;
drop the whole result (none) when the root Content-Type is blacklisted;
otherwise, for an archive, keep only the members whose Content-Type is not
blacklisted. -/
def remove_content_type (bl : List String) (r : SPResult) : Option SPResult :=
  if bl.isEmpty then some r
  else if r.rcontentType ∈ bl then none
  else if r.ris_archive then
    some { r with rfiles := r.rfiles.filter (fun j => !decide (j.fcontentType ∈ bl)) }
  else some r

/-- SampleParser._add_fingerprints: fingerprint the root, and the members
when the sample is an archive. -/
def add_fingerprints (r : SPResult) : SPResult :=
  let r1 := { r with rfingerprinted := true }
  if r1.ris_archive then
    { r1 with rfiles := r1.rfiles.map (fun j => { j with ffingerprinted := true }) }
  else r1

/-- Tail of SampleParser.parse_sample from the blacklist step on (tika and
virustotal disabled, as they are by default): _remove_content_type, then
fingerprints only under the truthiness guard on self._result, so a dropped
sample is never fingerprinted. -/
def parse_sample (bl : List String) (r0 : SPResult) : Option SPResult :=
  match remove_content_type bl r0 with
  | none => none
  | some r => some (add_fingerprints r)

/- AbstractUrlsHandlerBolt._load_whitelist. -/

/-- One configured whitelist source: the domain list its file loads to, and
the parsed expiry timestamp when the configuration has one (absent expiry
is modelled as none, matching the falsy test of the source). -/
structure WhitelistEntry where
  domains : List String
  expiry : Option Nat
  deriving DecidableEq, Repr

/-- The per-entry reload_ flag of _load_whitelist: true when expiry is
absent, else the strict comparison expiry greater than now. -/
def entryActive (now : Nat) (v : WhitelistEntry) : Bool :=
  match v.expiry with
  | none => true
  | some e => decide (now < e)

/-- AbstractUrlsHandlerBolt._load_whitelist: the whitelist is reset to the
empty set (the previous whitelist old is discarded) and rebuilt as the
union of the lowercased domain sets of the currently-valid entries. -/
def load_whitelist (old : Finset String) (conf : List WhitelistEntry) (now : Nat) :
    Finset String :=
  let _ := old
  let w : Finset String := ∅
  conf.foldl
    (fun acc v =>
      if entryActive now v then acc ∪ (v.domains.map lowerStr).toFinset else acc) w

/-- Concrete archive sample for the parse_sample witness: a zip whose
members are an executable and a document. -/
def spZip : SPResult :=
  { rfilename := "arc.zip", rcontentType := "application/zip", ris_archive := true,
    rfiles := [{ fname := "a.exe", fcontentType := "application/x-dosexec", ffingerprinted := false },
               { fname := "b.pdf", fcontentType := "application/pdf", ffingerprinted := false }],
    rfingerprinted := false }

/-! Helper lemmas about eraseFirst (Python list.remove) and the two-phase
collect-then-remove shape shared by pophash and popcontenttype. -/

/-- Erasing elements none of which equals x leaves a leading x in place. -/
theorem foldl_eraseFirst_not_mem {α : Type} [DecidableEq α] (x : α) (rm : List α) :
    ∀ l : List α, (∀ a ∈ rm, ¬(x = a)) →
      List.foldl eraseFirst (x :: l) rm = x :: List.foldl eraseFirst l rm := by
  induction rm with
  | nil => intro l _; rfl
  | cons a rm2 ih =>
    intro l hx
    have hxa : ¬(x = a) := hx a (List.mem_cons_self a rm2)
    rw [List.foldl_cons, List.foldl_cons,
      show eraseFirst (x :: l) a = x :: eraseFirst l a from by simp [eraseFirst, hxa]]
    exact ih (eraseFirst l a) (fun b hb => hx b (List.mem_cons_of_mem a hb))

/-- Removing, one by one, exactly the elements of a list that satisfy p
leaves exactly the elements that do not satisfy p. -/
theorem foldl_eraseFirst_filter {α : Type} [DecidableEq α] (p : α → Bool) (l : List α) :
    List.foldl eraseFirst l (l.filter p) = l.filter (fun a => !p a) := by
  induction l with
  | nil => rfl
  | cons x xs ih =>
    cases hx : p x with
    | true =>
      rw [List.filter_cons_of_pos hx, List.foldl_cons,
        show eraseFirst (x :: xs) x = xs from by simp [eraseFirst], ih,
        List.filter_cons_of_neg (p := fun a => !p a) (by simp [hx])]
    | false =>
      rw [List.filter_cons_of_neg (by simp [hx]),
        foldl_eraseFirst_not_mem x (xs.filter p) xs ?notmem, ih,
        List.filter_cons_of_pos (p := fun a => !p a) (by simp [hx])]
      case notmem =>
        intro a ha hxa
        have hpa := (List.mem_filter.mp ha).2
        rw [← hxa, hx] at hpa
        exact Bool.false_ne_true hpa

/-- eraseFirst of an element not satisfying q does not change the
q-sublist. -/
theorem filter_eraseFirst {α : Type} [DecidableEq α] (q : α → Bool) (a : α)
    (hqa : q a = false) : ∀ l : List α, (eraseFirst l a).filter q = l.filter q := by
  intro l
  induction l with
  | nil => rfl
  | cons x xs ih =>
    by_cases hxa : x = a
    · subst hxa
      simp [eraseFirst, List.filter_cons, hqa]
    · rw [show eraseFirst (x :: xs) a = x :: eraseFirst xs a from by simp [eraseFirst, hxa]]
      cases hqx : q x with
      | true => simp [List.filter_cons, hqx, ih]
      | false => simp [List.filter_cons, hqx, ih]

/-- Removing elements that all fail q does not change the q-sublist. -/
theorem filter_foldl_eraseFirst {α : Type} [DecidableEq α] (q : α → Bool) (rm : List α) :
    ∀ l : List α, (∀ a ∈ rm, q a = false) →
      (List.foldl eraseFirst l rm).filter q = l.filter q := by
  induction rm with
  | nil => intro l _; rfl
  | cons a rm2 ih =>
    intro l h
    rw [List.foldl_cons, ih _ (fun b hb => h b (List.mem_cons_of_mem a hb))]
    exact filter_eraseFirst q a (h a (List.mem_cons_self a rm2)) l

/-! Characterization of the popcontenttype loop. -/

/-- When every member carries a Content-Type, the member scan succeeds and
prunes exactly the matching members. -/
theorem scanMembers_ok (ctl : String) (files : List AttachFile)
    (h : files.any (fun j => j.acontentType.isNone) = false) :
    scanMembers ctl files = some (files.filter (fun j => !(fileMatches ctl j))) := by
  induction files with
  | nil => rfl
  | cons j js ih =>
    rw [List.any_cons, Bool.or_eq_false_iff] at h
    obtain ⟨hj, hjs⟩ := h
    cases hc : j.acontentType with
    | none => rw [hc] at hj; simp at hj
    | some c =>
      simp only [scanMembers, hc, ih hjs]
      cases hm : (lowerStr c == ctl) with
      | true => simp [List.filter_cons, fileMatches, hc, hm]
      | false => simp [List.filter_cons, fileMatches, hc, hm]

/-- When some member lacks a Content-Type, the member scan raises. -/
theorem scanMembers_err (ctl : String) (files : List AttachFile)
    (h : files.any (fun j => j.acontentType.isNone) = true) :
    scanMembers ctl files = none := by
  induction files with
  | nil => simp at h
  | cons j js ih =>
    cases hc : j.acontentType with
    | none => simp [scanMembers, hc]
    | some c =>
      rw [List.any_cons, hc] at h
      simp only [Option.isNone_some, Bool.false_or] at h
      simp [scanMembers, hc, ih h]

/-- pruneRecord never changes the is_filtered flag. -/
theorem pruneRecord_is_filtered (ctl : String) (i : Attachment) :
    (pruneRecord ctl i).is_filtered = i.is_filtered := by
  unfold pruneRecord; split <;> rfl

/-- The in-place member pruning of the loop leaves the sublist of filtered
records untouched. -/
theorem map_prune_filter (ctl : String) (l : List Attachment) :
    (l.map (pruneRecord ctl)).filter (fun i => i.is_filtered) =
      l.filter (fun i => i.is_filtered) := by
  induction l with
  | nil => rfl
  | cons i rest ih =>
    rw [List.map_cons]
    cases hf : i.is_filtered with
    | true =>
      rw [show pruneRecord ctl i = i from by simp [pruneRecord, hf]]
      simp [List.filter_cons, hf, ih]
    | false =>
      simp [List.filter_cons, pruneRecord_is_filtered, hf, ih]

/-- Success case of the popcontenttype loop: with no bad record, the loop
prunes matching members everywhere and collects exactly the non-filtered
records with a matching Content-Type. -/
theorem popLoop_ok (ctl : String) (l : List Attachment)
    (h : l.any (badRecord ctl) = false) :
    popLoop ctl l = .ok (l.map (pruneRecord ctl),
      (l.map (pruneRecord ctl)).filter (removePredicate ctl)) := by
  induction l with
  | nil => rfl
  | cons i rest ih =>
    rw [List.any_cons, Bool.or_eq_false_iff] at h
    obtain ⟨hbi, hrest⟩ := h
    cases hf : i.is_filtered with
    | true =>
      simp only [popLoop, hf, if_true, ih hrest]
      simp [pruneRecord, removePredicate, hf, List.filter_cons]
    | false =>
      cases hct : i.contentType with
      | none => simp [badRecord, hf, hct] at hbi
      | some c =>
        cases hm : (lowerStr c == ctl) with
        | true =>
          simp only [popLoop, hf, hct, hm, ih hrest, Bool.false_eq_true, if_false, if_true]
          simp [pruneRecord, removePredicate, ctMatches, hf, hct, hm, List.filter_cons]
        | false =>
          have hmem : i.files.any (fun j => j.acontentType.isNone) = false := by
            simpa [badRecord, hf, hct, ctMatches, hm] using hbi
          simp only [popLoop, hf, hct, hm, scanMembers_ok ctl i.files hmem,
            ih hrest, Bool.false_eq_true, if_false]
          simp [pruneRecord, removePredicate, ctMatches, hf, hct, hm, List.filter_cons]

/-- Error case of the popcontenttype loop: with some bad record the loop
raises, and the collection it leaves behind has the filtered records
untouched. -/
theorem popLoop_err (ctl : String) (l : List Attachment)
    (h : l.any (badRecord ctl) = true) :
    ∃ pl, popLoop ctl l = .error pl ∧
      pl.filter (fun i => i.is_filtered) = l.filter (fun i => i.is_filtered) := by
  induction l with
  | nil => simp at h
  | cons i rest ih =>
    rw [List.any_cons] at h
    cases hf : i.is_filtered with
    | true =>
      have hbi : badRecord ctl i = false := by simp [badRecord, hf]
      rw [hbi, Bool.false_or] at h
      obtain ⟨pl, hpl, hfl⟩ := ih h
      exact ⟨i :: pl, by simp [popLoop, hf, hpl], by simp [List.filter_cons, hf, hfl]⟩
    | false =>
      cases hct : i.contentType with
      | none => exact ⟨i :: rest, by simp [popLoop, hf, hct], rfl⟩
      | some c =>
        cases hm : (lowerStr c == ctl) with
        | true =>
          have hbi : badRecord ctl i = false := by
            simp [badRecord, hf, hct, ctMatches, hm]
          rw [hbi, Bool.false_or] at h
          obtain ⟨pl, hpl, hfl⟩ := ih h
          exact ⟨i :: pl, by simp [popLoop, hf, hct, hm, hpl],
            by simp [List.filter_cons, hf, hfl]⟩
        | false =>
          cases hmem : i.files.any (fun j => j.acontentType.isNone) with
          | true =>
            exact ⟨i :: rest,
              by simp [popLoop, hf, hct, hm, scanMembers_err ctl i.files hmem], rfl⟩
          | false =>
            have hbi : badRecord ctl i = false := by
              simp [badRecord, hf, hct, ctMatches, hm, hmem]
            rw [hbi, Bool.false_or] at h
            obtain ⟨pl, hpl, hfl⟩ := ih h
            refine ⟨{ i with files := i.files.filter (fun j => !(fileMatches ctl j)) } :: pl,
              by simp [popLoop, hf, hct, hm, scanMembers_ok ctl i.files hmem, hpl], ?_⟩
            simp [List.filter_cons, hf, hfl]

/-- With a recognized hash length, the pophash loop collects exactly the
records whose selected fingerprint equals the hash. -/
theorem pophashScan_some (h key : String) (hk : len_hashes h.length = some key)
    (l : List Attachment) :
    pophashScan h l = .ok (l.filter (fun i => decide (hashField i key = some h))) := by
  induction l with
  | nil => rfl
  | cons i rest ih =>
    simp only [pophashScan, hk, ih]
    by_cases hm : hashField i key = some h
    · simp [List.filter_cons, hm]
    · simp [List.filter_cons, hm]

/-- Claim C2 (amended): pophash resolves the algorithm from the hash
length (32 md5, 40 sha1, 64 sha256, 128 sha512) and removes exactly the
records whose corresponding fingerprint equals the hash string; a hash of
any other length raises HashError whenever the collection is non-empty,
but on an empty collection the length check sits inside the skipped loop
body, so pophash silently returns with no error and no change. -/
theorem pophash_spec (l : List Attachment) (h : String) :
    pophash l h =
      match l, len_hashes h.length with
      | [], _ => Except.ok []
      | _ :: _, none => Except.error ()
      | _ :: _, some key =>
          Except.ok (l.filter (fun i => !(decide (hashField i key = some h)))) := by
  cases l with
  | nil => rfl
  | cons i rest =>
    cases hk : len_hashes h.length with
    | none => simp [pophash, pophashScan, hk]
    | some key =>
      simp only [pophash, pophashScan_some h key hk (i :: rest)]
      rw [foldl_eraseFirst_filter (fun i => decide (hashField i key = some h)) (i :: rest)]

/-- Counterexample to claim C2 as stated: on an empty collection, pophash
with the invalid-length hash string zz returns normally instead of
raising HashError. -/
theorem pophash_empty_cex :
    pophash [] "zz" = .ok [] ∧ pophash [] "zz" ≠ .error () :=
  ⟨rfl, fun hc => Except.noConfusion hc⟩

/-- Claim C6 (amended): popcontenttype removes every non-filtered
top-level record whose Content-Type equals the target under
case-insensitive comparison, prunes every matching member from the
member lists of the surviving non-filtered records, and raises
ContentTypeError exactly when some non-filtered record lacks a
Content-Type or, having a non-matching one, has a member lacking a
Content-Type.  Records marked is_filtered are exempt (see the
counterexample for the claim as stated). -/
theorem popcontenttype_spec (l : List Attachment) (ct : String) :
    (l.any (badRecord (lowerStr ct)) = false →
      popcontenttype l ct =
        .ok ((l.map (pruneRecord (lowerStr ct))).filter
          (fun i => !(removePredicate (lowerStr ct) i))))
    ∧ (l.any (badRecord (lowerStr ct)) = true → isOkE (popcontenttype l ct) = false) := by
  constructor
  · intro hb
    simp only [popcontenttype, popLoop_ok (lowerStr ct) l hb]
    rw [foldl_eraseFirst_filter (removePredicate (lowerStr ct)) (l.map (pruneRecord (lowerStr ct)))]
  · intro hb
    obtain ⟨pl, hpl, _⟩ := popLoop_err (lowerStr ct) l hb
    simp [popcontenttype, hpl, isOkE]

/-- Witness for popcontenttype_spec: a collection of a plain html record
and a zip archive with an html member and a pdf member, removed with the
differently-cased target TEXT/HTML: the html record goes, the archive
survives with its html member pruned. -/
theorem popcontenttype_spec_witness :
    popcontenttype [recHtml, recZip] "TEXT/HTML" =
      .ok (([recHtml, recZip].map (pruneRecord (lowerStr "TEXT/HTML"))).filter
        (fun i => !(removePredicate (lowerStr "TEXT/HTML") i))) :=
  (popcontenttype_spec [recHtml, recZip] "TEXT/HTML").1 (by decide)

/-- Counterexample to claim C6 as stated: a record whose Content-Type
equals the target is NOT removed when it is marked is_filtered, so
popcontenttype does not remove every top-level record with the target
content type. -/
theorem popcontenttype_filtered_cex :
    popcontenttype [fHtml] "text/html" = .ok [fHtml]
    ∧ fHtml.contentType = some "text/html" ∧ fHtml.is_filtered = true :=
  ⟨rfl, rfl, rfl⟩

/-- Claim C10: popcontenttype never removes, modifies, or inspects a
record marked is_filtered: on both exits (normal return and the
ContentTypeError raise) the sublist of filtered records is exactly the
one of the input collection, the error is raised exactly when some record
is bad, and a filtered record is never bad (its possibly missing
Content-Type never triggers the error). -/
theorem popcontenttype_frame (l : List Attachment) (ct : String) :
    (exitList (popcontenttype l ct)).filter (fun i => i.is_filtered) =
        l.filter (fun i => i.is_filtered)
    ∧ isOkE (popcontenttype l ct) = !(l.any (badRecord (lowerStr ct)))
    ∧ ∀ i : Attachment, (badRecord (lowerStr ct) i && i.is_filtered) = false := by
  have h3 : ∀ i : Attachment, (badRecord (lowerStr ct) i && i.is_filtered) = false := by
    intro i; cases hi : i.is_filtered <;> simp [badRecord, hi]
  cases hb : l.any (badRecord (lowerStr ct)) with
  | false =>
    refine ⟨?_, ?_, h3⟩
    · simp only [popcontenttype, popLoop_ok (lowerStr ct) l hb, exitList]
      rw [filter_foldl_eraseFirst (fun i => i.is_filtered)
        ((l.map (pruneRecord (lowerStr ct))).filter (removePredicate (lowerStr ct)))
        (l.map (pruneRecord (lowerStr ct))) ?notfiltered]
      · exact map_prune_filter (lowerStr ct) l
      case notfiltered =>
        intro a ha
        have hpa := (List.mem_filter.mp ha).2
        rw [removePredicate, Bool.and_eq_true, Bool.not_eq_true'] at hpa
        exact hpa.1
    · simp [popcontenttype, popLoop_ok (lowerStr ct) l hb, isOkE]
  | true =>
    obtain ⟨pl, hpl, hfl⟩ := popLoop_err (lowerStr ct) l hb
    refine ⟨?_, ?_, h3⟩
    · simp [popcontenttype, hpl, exitList, hfl]
    · simp [popcontenttype, hpl, isOkE]

/-- Claim C1 (amended): with three records whose sha1 fingerprints are A,
B, C and filter called with the hash set containing A and C, the two
matching records end with is_filtered true and their payload dropped, the
untouched record keeps its payload and gets is_filtered false, and the
returned analyzed set contains ALL hashes seen, A, B and C (not only the
matched A and C, which the counterexample shows). -/
theorem filter_three_records (x y z : Attachment) (a b c : String)
    (hx : x.sha1 = some a) (hy : y.sha1 = some b) (hz : z.sha1 = some c)
    (hba : b ≠ a) (hbc : b ≠ c) :
    filter [a, c] "sha1" [x, y, z] =
      .ok ([{ x with payload := none, is_filtered := true },
            { y with is_filtered := false },
            { z with payload := none, is_filtered := true }],
           [a, b, c]) := by
  have hhx : hashField x "sha1" = some a := by rw [← hx]; rfl
  have hhy : hashField y "sha1" = some b := by rw [← hy]; rfl
  have hhz : hashField z "sha1" = some c := by rw [← hz]; rfl
  simp [filter, hhx, hhy, hhz, hba, hbc]

/-- Witness for filter_three_records at concrete records with sha1
fingerprints a, b, c. -/
theorem filter_three_records_witness :
    filter ["a", "c"] "sha1" [cA, cB, cC] =
      .ok ([{ cA with payload := none, is_filtered := true },
            { cB with is_filtered := false },
            { cC with payload := none, is_filtered := true }],
           ["a", "b", "c"]) :=
  filter_three_records cA cB cC "a" "b" "c" rfl rfl rfl (by decide) (by decide)

/-- Counterexample to claim C1 as stated: on the three concrete records
with sha1 a, b, c and the check set containing a and c, the set filter
returns is the set of all three hashes seen, which differs from the
claimed matched set of a and c. -/
theorem filter_returned_set_cex :
    (filter ["a", "c"] "sha1" [cA, cB, cC]).map (fun r => r.2) = .ok ["a", "b", "c"]
    ∧ (["a", "b", "c"] : List String).toFinset ≠ (["a", "c"] : List String).toFinset :=
  ⟨rfl, by decide⟩

/-- Claim C9: on a normal return, filter has assigned is_filtered on every
record of the collection: each output record is markRecord of the input
record, so a record whose fingerprint is not in the check list ends with
is_filtered false even if it was true before, with its payload field left
exactly as it was (a previously dropped payload stays dropped). -/
theorem filter_assigns_all (check : List String) (ht : String) (l l2 : List Attachment)
    (s : List String) (h : filter check ht l = .ok (l2, s)) :
    l2 = l.map (markRecord check ht) := by
  induction l generalizing l2 s with
  | nil =>
    injection h with h1
    injection h1 with ha hb
    rw [← ha]; rfl
  | cons i rest ih =>
    cases hh : hashField i ht with
    | none => simp [filter, hh] at h
    | some hv =>
      simp only [filter, hh] at h
      cases hr : filter check ht rest with
      | error pl => rw [hr] at h; simp at h
      | ok pr =>
        obtain ⟨lr, sr⟩ := pr
        rw [hr] at h
        simp only [Except.ok.injEq, Prod.mk.injEq] at h
        obtain ⟨h1, h2⟩ := h
        rw [← h1, List.map_cons, ← ih lr sr hr]
        simp [markRecord, hh]

/-- Witness for filter_assigns_all: a previously filtered record with no
payload and a fingerprint outside the check list comes out with
is_filtered assigned false and the payload still gone. -/
theorem filter_assigns_all_witness :
    [{ pF with is_filtered := false }] = [pF].map (markRecord ["zz"] "sha1") :=
  filter_assigns_all ["zz"] "sha1" [pF] [{ pF with is_filtered := false }] ["b"] rfl

/-- Claim C3 (amended): the scratch file and scratch directory are removed
on the success and not-an-archive exits of archive expansion, but when
the extract operation raises, the error propagates with BOTH the scratch
file and the scratch directory left in place (there is no try/finally
around extract_archive); SampleParser._create_sample_result behaves
identically to Attachments._addmetadata. -/
theorem addmetadata_scratch_spec (t e : Bool) :
    addmetadataScratch t e =
      (if t && !e then (some "ExtractError", { sampleFile := true, tempDir := true })
       else (none, { sampleFile := false, tempDir := false }))
    ∧ create_sample_result_scratch t e = addmetadataScratch t e := by
  cases t <;> cases e <;> exact ⟨rfl, rfl⟩

/-- Counterexample to claim C3 as stated: on the exit path where the data
is an archive and the extract operation raises, both expansion routines
propagate the error with the scratch file and scratch directory still
existing, so cleanup does not happen on every exit path. -/
theorem addmetadata_scratch_cex :
    addmetadataScratch true false =
      (some "ExtractError", { sampleFile := true, tempDir := true })
    ∧ create_sample_result_scratch true false =
      (some "ExtractError", { sampleFile := true, tempDir := true }) :=
  ⟨rfl, rfl⟩

/-- Claim C4: evaluation of utils.extension at the failing input README
(a filename with no dot-segment): the code yields the extension as the
empty string, not the absent value the specification states, because
os.path.splitext always returns a pair so the None branch of the source
is dead; on a filename with a dot-segment the lower-cased dot-segment is
returned as specified. -/
theorem extension_no_dot_eval :
    extension "README" = some "" ∧ extension "Photo.JPG" = some ".jpg" :=
  ⟨by decide, by decide⟩

/-- Claim C8: in check_archive, a failing archive-tool test yields
is_archive false on a normal return (never an error), for both
write_sample modes, while a failure to create or write the scratch file
raises TempIOError regardless of the test outcome. -/
theorem check_archive_spec (testOk ws : Bool) :
    check_archive true testOk ws = .ok (testOk, ws)
    ∧ check_archive false testOk ws = .error "TempIOError" := by
  cases testOk <;> cases ws <;> exact ⟨rfl, rfl⟩

/-- Claim C5: with a non-empty blacklist, a sample whose root sniffed
content type is blacklisted is dropped entirely (parse result none, so
the fingerprint step never runs on it), while a sample whose root content
type is clean survives with the blacklisted members pruned from its
member list (for an archive) and is then fingerprinted. -/
theorem parse_sample_blacklist_spec (bl : List String) (r0 : SPResult) (hbl : bl ≠ []) :
    (r0.rcontentType ∈ bl → parse_sample bl r0 = none)
    ∧ (r0.rcontentType ∉ bl →
        parse_sample bl r0 = some (add_fingerprints
          (if r0.ris_archive then
            { r0 with rfiles := r0.rfiles.filter (fun j => !decide (j.fcontentType ∈ bl)) }
          else r0))) := by
  have hne : bl.isEmpty = false := by
    cases bl with
    | nil => exact absurd rfl hbl
    | cons a as => rfl
  constructor
  · intro hmem
    simp [parse_sample, remove_content_type, hne, hmem]
  · intro hmem
    cases ha : r0.ris_archive with
    | true => simp [parse_sample, remove_content_type, hne, hmem, ha]
    | false => simp [parse_sample, remove_content_type, hne, hmem, ha]

/-- Witness for parse_sample_blacklist_spec on a concrete zip sample with
an executable member and a document member: blacklisting the zip content
type drops the sample entirely; blacklisting only the executable content
type keeps the root and prunes exactly that member. -/
theorem parse_sample_blacklist_witness :
    parse_sample ["application/zip"] spZip = none
    ∧ parse_sample ["application/x-dosexec"] spZip =
        some (add_fingerprints
          (if spZip.ris_archive then
            { spZip with rfiles :=
                spZip.rfiles.filter (fun j => !decide (j.fcontentType ∈ ["application/x-dosexec"])) }
          else spZip)) :=
  ⟨(parse_sample_blacklist_spec ["application/zip"] spZip (by decide)).1 (by decide),
   (parse_sample_blacklist_spec ["application/x-dosexec"] spZip (by decide)).2 (by decide)⟩

/-- Membership in the whitelist fold: a domain is collected exactly when
some already-collected domain or some active entry contributes it. -/
theorem mem_load_whitelist_foldl (now : Nat) (d : String) (conf : List WhitelistEntry) :
    ∀ acc : Finset String,
      (d ∈ conf.foldl
          (fun acc v =>
            if entryActive now v then acc ∪ (v.domains.map lowerStr).toFinset else acc) acc
        ↔ d ∈ acc ∨ ∃ v ∈ conf, entryActive now v = true ∧ d ∈ v.domains.map lowerStr) := by
  induction conf with
  | nil => intro acc; simp
  | cons v vs ih =>
    intro acc
    rw [List.foldl_cons]
    cases hv : entryActive now v with
    | false =>
      rw [ih]
      simp [List.exists_mem_cons_iff, hv]
    | true =>
      rw [ih]
      simp only [hv, eq_self_iff_true, if_true, Finset.mem_union, List.mem_toFinset,
        List.exists_mem_cons_iff, true_and]
      tauto

/-- Claim C7: the whitelist reload rebuilds the whitelist from scratch
(the result does not depend on the previous whitelist), and a domain is
in the rebuilt whitelist exactly when some configured entry whose expiry
is absent or strictly later than the reload time contributes it (lower
cased); an entry whose expiry has passed therefore contributes nothing,
whatever the previous whitelist held. -/
theorem load_whitelist_spec (o o2 : Finset String) (conf : List WhitelistEntry)
    (now : Nat) (d : String) :
    load_whitelist o conf now = load_whitelist o2 conf now
    ∧ (d ∈ load_whitelist o conf now ↔
        ∃ v ∈ conf, entryActive now v = true ∧ d ∈ v.domains.map lowerStr) := by
  constructor
  · rfl
  · unfold load_whitelist
    rw [mem_load_whitelist_foldl]
    simp
